import Mathlib

/-!
Shallow embedding of the `@neoma/config` environment-configuration engine:
the camelCase → SCREAMING_SNAKE_CASE name transformation, the proxy-based
`get`/`has` resolver with its strict and coerce policies, and the
precedence-ordered `.env` file loader of `ConfigModule.forRoot`.

Modelling conventions:
* JavaScript strings are Lean `String`s restricted to the ASCII behaviour the
  source regexes (`[a-z0-9]`, `[A-Z]`) rely on.
* JavaScript numbers are modelled exactly (`JsNum`: NaN, ±Infinity, or a
  rational); rounding to binary64 is not modelled, which is irrelevant to the
  properties proved here (they only inspect NaN-ness and exact literal values).
* The process environment is a function `String → Option String`
  (`none` = the key is not defined on `process.env`).
* A thrown `Error` in `get` is modelled as `Except.error msg`.
-/

namespace NeomaConfig

/-! ### Character classes used by the source regexes -/

/-- ASCII lower-case letter, the `[a-z]` class of the source regexes. -/
def lowerAZ (c : Char) : Bool := 'a' ≤ c && c ≤ 'z'

/-- ASCII upper-case letter, the `[A-Z]` class of the source regexes. -/
def upperAZ (c : Char) : Bool := 'A' ≤ c && c ≤ 'Z'

/-- ASCII digit, the `[0-9]` class of the source regexes. -/
def digit09 (c : Char) : Bool := '0' ≤ c && c ≤ '9'

/-- The `[a-z0-9]` class of the source regexes. -/
def lowerOrDigit (c : Char) : Bool := lowerAZ c || digit09 c

/-- ASCII upper-casing of one character, as `String.prototype.toUpperCase`
acts on the ASCII range. -/
def upChar (c : Char) : Char :=
  if lowerAZ c then Char.ofNat (c.toNat - 32) else c

/-! ### The name transformation (property name → environment key)

The source derives the environment key by
`prop.replace(/([a-z0-9])([A-Z])/g, "$1_$2")
     .replace(/([A-Z]+)([A-Z][a-z0-9]+)/g, "$1_$2")
     .toUpperCase()`.

Both global replaces are equivalent to local insertions of `_`:

* the first inserts `_` between every adjacent pair (lower-or-digit, upper);
  a match consumes both characters, but since the second character of a match
  is upper-case it can never start a further match, so consumption is
  unobservable;
* the second matches a greedy run `[A-Z]+` that backtracks by exactly one
  character to satisfy `[A-Z][a-z0-9]+`, i.e. it inserts `_` between two
  adjacent upper-case letters whose successor is lower-or-digit; no new match
  can start inside a consumed match (its tail `[a-z0-9]+` holds no upper-case
  pair), so this too is a local rule.
-/

/-- First replace: insert `_` between a lower-case letter or digit and a
following upper-case letter. -/
def rule1 : List Char → List Char
  | a :: b :: rest =>
    if lowerOrDigit a && upperAZ b then a :: '_' :: rule1 (b :: rest)
    else a :: rule1 (b :: rest)
  | l => l

/-- Second replace: insert `_` between two adjacent upper-case letters whose
successor is a lower-case letter or digit (the boundary where an acronym ends
and a capitalized word begins). -/
def rule2 : List Char → List Char
  | a :: b :: c :: rest =>
    if upperAZ a && (upperAZ b && lowerOrDigit c) then
      a :: '_' :: rule2 (b :: c :: rest)
    else a :: rule2 (b :: c :: rest)
  | l => l

/-- The full name transformation: both replaces, then upper-case. -/
def nameMap (s : String) : String :=
  ⟨(rule2 (rule1 s.data)).map upChar⟩

example : nameMap "databaseUrl" = "DATABASE_URL" := by decide
example : nameMap "databaseURL" = "DATABASE_URL" := by decide
example : nameMap "database_url" = "DATABASE_URL" := by decide
example : nameMap "awsS3Bucket" = "AWS_S3_BUCKET" := by decide
example : nameMap "AWSBucket" = "AWS_BUCKET" := by decide
example : nameMap "screamingSnakeCase" = "SCREAMING_SNAKE_CASE" := by decide

/-! ### JavaScript number semantics needed by `isCleanNumber` and coercion

`Number(str)` on a string follows the StringNumericLiteral grammar: trim
whitespace; empty → 0; optional sign followed by `Infinity` or a decimal
literal (digits, optional fraction, optional exponent); or an unsigned
`0x`/`0X`, `0o`/`0O`, `0b`/`0B` radix literal; anything else → NaN. -/

/-- JavaScript number values, with finite values kept exact as rationals. -/
inductive JsNum where
  | nan
  | inf
  | negInf
  | num (q : ℚ)
deriving DecidableEq, Repr

/-- JavaScript whitespace characters trimmed by `Number` and
`String.prototype.trim` (the ASCII ones; the identifiers and values at issue
contain no exotic Unicode whitespace). -/
def jsWs (c : Char) : Bool :=
  c = ' ' || c = '\t' || c = '\n' || c = '\r' || c = '\x0b' || c = '\x0c'

/-- Trim leading and trailing whitespace from a character list. -/
def jsTrim (l : List Char) : List Char :=
  ((l.dropWhile jsWs).reverse.dropWhile jsWs).reverse

/-- Value of a digit in the given base, if it is one. -/
def digitVal (base : Nat) (c : Char) : Option Nat :=
  let v :=
    if digit09 c then some (c.toNat - 48)
    else if 'a' ≤ c && c ≤ 'f' then some (c.toNat - 87)
    else if 'A' ≤ c && c ≤ 'F' then some (c.toNat - 55)
    else none
  match v with
  | some d => if d < base then some d else none
  | none => none

/-- Parse a non-empty all-digit run in the given base. -/
def natOfDigits (base : Nat) : List Char → Option Nat
  | [] => none
  | l => l.foldl
      (fun acc c =>
        match acc, digitVal base c with
        | some n, some d => some (n * base + d)
        | _, _ => none)
      (some 0)

/-- Parse the mantissa of a decimal literal: `digits`, `digits.digits?`, or
`.digits` (at least one digit overall). -/
def parseDecMantissa (l : List Char) : Option ℚ :=
  let ip := l.takeWhile (· ≠ '.')
  let rest := l.dropWhile (· ≠ '.')
  match rest with
  | [] =>
    match natOfDigits 10 ip with
    | some n => some (n : ℚ)
    | none => none
  | _ :: fp =>
    if fp.contains '.' then none
    else if ip = [] then
      match natOfDigits 10 fp with
      | some f => some ((f : ℚ) / (10 : ℚ) ^ fp.length)
      | none => none
    else
      match natOfDigits 10 ip with
      | some n =>
        if fp = [] then some (n : ℚ)
        else
          match natOfDigits 10 fp with
          | some f => some ((n : ℚ) + (f : ℚ) / (10 : ℚ) ^ fp.length)
          | none => none
      | none => none

/-- Parse an optionally-signed non-empty decimal digit run (an exponent). -/
def parseSignedExp (l : List Char) : Option ℤ :=
  match l with
  | '+' :: ds =>
    match natOfDigits 10 ds with
    | some n => some (n : ℤ)
    | none => none
  | '-' :: ds =>
    match natOfDigits 10 ds with
    | some n => some (-(n : ℤ))
    | none => none
  | ds =>
    match natOfDigits 10 ds with
    | some n => some (n : ℤ)
    | none => none

/-- Parse an unsigned decimal literal with optional `e`/`E` exponent. -/
def parseDec (l : List Char) : Option ℚ :=
  let m := l.takeWhile (fun c => c ≠ 'e' && c ≠ 'E')
  let rest := l.dropWhile (fun c => c ≠ 'e' && c ≠ 'E')
  match rest with
  | [] => parseDecMantissa m
  | _ :: ex =>
    match parseDecMantissa m, parseSignedExp ex with
    | some q, some e => some (q * (10 : ℚ) ^ e)
    | _, _ => none

/-- Parse an unsigned numeric literal: `Infinity`, a radix literal
(`0x`/`0o`/`0b`), or a decimal literal. -/
def parseUnsigned (l : List Char) : JsNum :=
  if l = "Infinity".data then .inf
  else
    match l with
    | '0' :: p :: ds =>
      if p = 'x' || p = 'X' then
        match natOfDigits 16 ds with
        | some n => .num (n : ℚ)
        | none => .nan
      else if p = 'o' || p = 'O' then
        match natOfDigits 8 ds with
        | some n => .num (n : ℚ)
        | none => .nan
      else if p = 'b' || p = 'B' then
        match natOfDigits 2 ds with
        | some n => .num (n : ℚ)
        | none => .nan
      else
        match parseDec ('0' :: p :: ds) with
        | some q => .num q
        | none => .nan
    | _ =>
      match parseDec l with
      | some q => .num q
      | none => .nan

/-- The `Number(str)` conversion on strings. A signed literal admits only
`Infinity` or a decimal literal (radix literals take no sign). -/
def jsNumber (s : String) : JsNum :=
  match jsTrim s.data with
  | [] => .num 0
  | '+' :: rest =>
    if rest = "Infinity".data then .inf
    else
      match parseDec rest with
      | some q => .num q
      | none => .nan
  | '-' :: rest =>
    if rest = "Infinity".data then .negInf
    else
      match parseDec rest with
      | some q => .num (-q)
      | none => .nan
  | l => parseUnsigned l

example : jsNumber "0x1F" = .num 31 := by decide
example : jsNumber " 123 " = .num 123 := by decide
example : jsNumber "NaN" = .nan := by decide
example : jsNumber "Infinity" = .inf := by decide
example : jsNumber "" = .num 0 := by decide
example : jsNumber "0.123" ≠ .nan := by decide
example : jsNumber "1e2" ≠ .nan := by decide
example : jsNumber "0b101" = .num 5 := by decide
example : jsNumber "0o17" = .num 15 := by decide
example : jsNumber "007" = .num 7 := by decide
example : jsNumber "abc" = .nan := by decide

/-- Does the trimmed string match the regex `/^0[0-9]/` (a decimal leading
zero)? -/
def leadingZeroDigit (s : String) : Bool :=
  match jsTrim s.data with
  | '0' :: d :: _ => digit09 d
  | _ => false

/-- The source's `isCleanNumber`: eligibility of a (possibly undefined) raw
value for numeric coercion. `!str` rejects `undefined` and the empty string;
`/^0[0-9]/.test(str.trim())` rejects decimal leading zeros; `!isNaN(Number(str))`
requires the string to parse to a non-NaN number. -/
def isCleanNumber (str : Option String) : Bool :=
  match str with
  | none => false
  | some s =>
    if s = "" then false
    else if leadingZeroDigit s then false
    else jsNumber s ≠ .nan

example : isCleanNumber (some "123") = true := by decide
example : isCleanNumber (some "007") = false := by decide
example : isCleanNumber (some "") = false := by decide
example : isCleanNumber (some " 123 ") = true := by decide
example : isCleanNumber (some "NaN") = false := by decide
example : isCleanNumber (some "Infinity") = true := by decide

/-! ### The ConfigService resolver (proxy `get` and `has` traps) -/

/-- Values the proxy `get` trap can return
(`string | boolean | number | undefined | null`). -/
inductive Value where
  | str (s : String)
  | boolean (b : Bool)
  | num (n : JsNum)
  | nullV
  | undefV
deriving DecidableEq, Repr

/-- The `ConfigOptions` record (after `forRoot` has filled in the defaults:
a missing flag on the partial options object is falsy, like `false`). -/
structure ConfigOptions where
  loadEnv : Bool
  strict : Bool
  coerce : Bool
deriving DecidableEq, Repr

/-- The process environment: `none` models a key not defined on
`process.env`. -/
def Env := String → Option String

/-- A property name reaching a proxy trap: either a symbol or a string. -/
inductive PropKey where
  | symbol
  | str (s : String)

/-- Message of the strict-mode `Error`, exactly as the source builds it. -/
def strictMsg (p envKey : String) : String :=
  "Strict mode error when accessing configuration property " ++ "'" ++ p
    ++ "'" ++ ". " ++ envKey ++ " is not defined on process.env"

/-- Body of the proxy `get` trap after the special-property guard:
the strict check on the raw value, then the coercion pipeline.
`p` is the original property name, `envKey` its transformed form and
`value` the raw lookup `process.env[envKey]`. -/
def resolveValue (opts : ConfigOptions) (p envKey : String)
    (value : Option String) : Except String Value :=
  if value = none ∧ opts.strict then .error (strictMsg p envKey)
  else if opts.coerce then
    if value = some "null" then .ok .nullV
    else if value = some "undefined" then .ok .undefV
    else if value = some "true" then .ok (.boolean true)
    else if value = some "false" then .ok (.boolean false)
    else if isCleanNumber value then
      match value with
      | some s => .ok (.num (jsNumber s))
      | none => .ok .undefV
    else
      match value with
      | some s => .ok (.str s)
      | none => .ok .undefV
  else
    match value with
    | some s => .ok (.str s)
    | none => .ok .undefV

/-- The proxy `get` trap: special properties (symbols, `then`, `toJSON`)
resolve to `undefined` before any lookup; everything else goes through the
name transformation, the environment lookup and `resolveValue`. -/
def configGet (opts : ConfigOptions) (env : Env) (prop : PropKey) :
    Except String Value :=
  match prop with
  | .symbol => .ok .undefV
  | .str p =>
    if p = "then" || p = "toJSON" then .ok .undefV
    else resolveValue opts p (nameMap p) (env (nameMap p))

/-- The proxy `has` trap: false for special properties, otherwise definedness
of the transformed key on the environment; it never consults the options. -/
def configHas (env : Env) (prop : PropKey) : Bool :=
  match prop with
  | .symbol => false
  | .str p =>
    if p = "then" || p = "toJSON" then false
    else (env (nameMap p)).isSome

/-! ### The `.env` file loader of `ConfigModule.forRoot`

`dotenv.config({ path: [...] })` parses each listed file in order (a missing
file is skipped) and assigns each parsed key to `process.env` only when that
key is not already present, so earlier files and the pre-existing process
environment win. A parsed file is modelled as its list of key/value pairs. -/

/-- A parsed `.env` file: an ordered list of KEY=VALUE pairs. -/
def DotenvFile := List (String × String)

/-- The filesystem, as dotenv sees it: `none` means the file at this path
does not exist (dotenv skips it). -/
def FileSystem := String → Option DotenvFile

/-- Populate one parsed key into the environment only if it is absent
(dotenv never overwrites an existing `process.env` entry). -/
def setIfAbsent (e : Env) (kv : String × String) : Env :=
  fun x =>
    if x = kv.1 then
      match e kv.1 with
      | some w => some w
      | none => some kv.2
    else e x

/-- Load one (possibly missing) file into the environment. -/
def applyFile (e : Env) (f : Option DotenvFile) : Env :=
  match f with
  | none => e
  | some ps => ps.foldl setIfAbsent e

/-- Load a list of (possibly missing) files in order. -/
def loadFiles (e : Env) (fs : List (Option DotenvFile)) : Env :=
  fs.foldl applyFile e

/-- The `NODE_ENV` fragment interpolated into the file names: template-literal
interpolation of `undefined` produces the literal string `undefined`. -/
def nodeEnvName (env : Env) : String :=
  match env "NODE_ENV" with
  | some s => s
  | none => "undefined"

/-- The `path` array passed to `dotenv.config`, in source order. -/
def envPaths (env : Env) : List String :=
  [ ".env." ++ nodeEnvName env ++ ".local"
  , ".env.local"
  , ".env." ++ nodeEnvName env
  , ".env" ]

/-- The side effect of `ConfigModule.forRoot` on the process environment:
when `loadEnv` is set, load the four files in order; otherwise leave the
environment untouched. -/
def forRootLoad (loadEnv : Bool) (fsys : FileSystem) (env : Env) : Env :=
  if loadEnv then loadFiles env ((envPaths env).map fsys) else env

/-- First value carried for the given key by a list of parsed pairs (the
value the `setIfAbsent` fold installs when the key starts out absent). -/
def pairsLookup (ps : List (String × String)) (k : String) : Option String :=
  match ps with
  | [] => none
  | kv :: rest => if k = kv.1 then some kv.2 else pairsLookup rest k

/-- First value of the given key in a possibly-missing parsed file. -/
def fileValue (f : Option DotenvFile) (k : String) : Option String :=
  match f with
  | none => none
  | some ps => pairsLookup ps k

/-- First defined value in a precedence-ordered list of candidates. -/
def firstSome : List (Option String) → Option String
  | [] => none
  | some v :: _ => some v
  | none :: rest => firstSome rest

/-! ### Helper lemmas -/

/-- Appending strings appends their character data. -/
theorem append_data (a b : String) : (a ++ b).data = a.data ++ b.data := rfl

/-- The original property name occurs verbatim inside the strict-mode
message. -/
theorem strictMsg_infix_key (p e : String) :
    p.data <:+: (strictMsg p e).data := by
  refine ⟨("Strict mode error when accessing configuration property "
      ++ "'").data,
    ("'" ++ ". " ++ e ++ " is not defined on process.env").data, ?_⟩
  simp [strictMsg, append_data, List.append_assoc]

/-- The derived environment key occurs verbatim inside the strict-mode
message. -/
theorem strictMsg_infix_envKey (p e : String) :
    e.data <:+: (strictMsg p e).data := by
  refine ⟨("Strict mode error when accessing configuration property "
      ++ "'" ++ p ++ "'" ++ ". ").data,
    (" is not defined on process.env").data, ?_⟩
  simp [strictMsg, append_data, List.append_assoc]

/-- A one-element candidate list resolves to its element. -/
theorem firstSome_single (a : Option String) : firstSome [a] = a := by
  cases a <;> rfl

/-- Resolving a resolved head against the rest flattens. -/
theorem firstSome_assoc (a b : Option String) (rest : List (Option String)) :
    firstSome (firstSome [a, b] :: rest) = firstSome (a :: b :: rest) := by
  cases a <;> cases b <;> rfl

/-- Folding `setIfAbsent` over parsed pairs resolves a key to its current
value, else to the first pair carrying it. -/
theorem foldl_setIfAbsent (ps : List (String × String)) (e : Env)
    (k : String) :
    (ps.foldl setIfAbsent e) k = firstSome [e k, pairsLookup ps k] := by
  induction ps generalizing e with
  | nil => cases h : e k <;> simp [firstSome, pairsLookup, h]
  | cons kv ps ih =>
    rw [List.foldl_cons, ih]
    by_cases hk : k = kv.1
    · rw [hk]
      cases h : e kv.1 <;>
        simp [setIfAbsent, pairsLookup, firstSome, h]
    · have hset : setIfAbsent e kv k = e k := by simp [setIfAbsent, hk]
      rw [hset]
      cases h : e k <;> simp [pairsLookup, firstSome, h, hk]

/-- One file fills exactly the keys the environment lacks. -/
theorem applyFile_apply (e : Env) (f : Option DotenvFile) (k : String) :
    applyFile e f k = firstSome [e k, fileValue f k] := by
  match f with
  | none =>
    cases h : e k <;> simp [applyFile, fileValue, firstSome, h]
  | some ps => simpa [applyFile, fileValue] using foldl_setIfAbsent ps e k

/-- Loading a list of files resolves each key to its first defined source. -/
theorem loadFiles_apply (e : Env) (fs : List (Option DotenvFile))
    (k : String) :
    loadFiles e fs k = firstSome (e k :: fs.map (fun f => fileValue f k)) := by
  induction fs generalizing e with
  | nil =>
    rw [List.map_nil, firstSome_single]
    rfl
  | cons f fs ih =>
    rw [List.map_cons,
      show loadFiles e (f :: fs) = loadFiles (applyFile e f) fs from rfl,
      ih, applyFile_apply, firstSome_assoc]

/-! ### The claims -/

/-- C1: the name transformation sends each of `databaseUrl`, `databaseURL`
and `database_url` to exactly `DATABASE_URL`, so `get` and `has` on any of
the three identifiers consult the same environment entry `DATABASE_URL`. -/
theorem c1_database_url_aliases :
    nameMap "databaseUrl" = "DATABASE_URL" ∧
    nameMap "databaseURL" = "DATABASE_URL" ∧
    nameMap "database_url" = "DATABASE_URL" ∧
    ∀ (opts : ConfigOptions) (env : Env),
      (configGet opts env (.str "databaseUrl")
          = resolveValue opts "databaseUrl" "DATABASE_URL"
              (env "DATABASE_URL") ∧
        configGet opts env (.str "databaseURL")
          = resolveValue opts "databaseURL" "DATABASE_URL"
              (env "DATABASE_URL") ∧
        configGet opts env (.str "database_url")
          = resolveValue opts "database_url" "DATABASE_URL"
              (env "DATABASE_URL")) ∧
      (configHas env (.str "databaseUrl") = (env "DATABASE_URL").isSome ∧
        configHas env (.str "databaseURL") = (env "DATABASE_URL").isSome ∧
        configHas env (.str "database_url") = (env "DATABASE_URL").isSome) :=
  ⟨by decide, by decide, by decide,
    fun _ _ => ⟨⟨rfl, rfl, rfl⟩, ⟨rfl, rfl, rfl⟩⟩⟩

/-- C2: the transformation maps `awsS3Bucket` to `AWS_S3_BUCKET` and
`AWSBucket` to `AWS_BUCKET`; the second rule splits between an upper-case run
and a following capitalized word (`AWSBucket` → `AWS_Bucket`) but leaves the
single upper-case-plus-digit token `S3` of `aws_S3_Bucket` unsplit. -/
theorem c2_acronym_handling :
    nameMap "awsS3Bucket" = "AWS_S3_BUCKET" ∧
    nameMap "AWSBucket" = "AWS_BUCKET" ∧
    rule2 "AWSBucket".data = "AWS_Bucket".data ∧
    rule1 "awsS3Bucket".data = "aws_S3_Bucket".data ∧
    rule2 "aws_S3_Bucket".data = "aws_S3_Bucket".data :=
  ⟨by decide, by decide, by decide, by decide, by decide⟩

/-- C9: symbols and the reserved names `then` and `toJSON` resolve to
`undefined` unconditionally in `get`, for every policy and every environment
(in particular even when `THEN` or `TO_JSON` — their would-be transformed
keys — are defined), and never raise. -/
theorem c9_special_props (opts : ConfigOptions) (env : Env) :
    configGet opts env .symbol = .ok .undefV ∧
    configGet opts env (.str "then") = .ok .undefV ∧
    configGet opts env (.str "toJSON") = .ok .undefV ∧
    nameMap "then" = "THEN" ∧
    nameMap "toJSON" = "TO_JSON" :=
  ⟨rfl, rfl, rfl, by decide, by decide⟩

/-- C3: with file loading enabled, the four files are consulted in the exact
order `.env.{environment}.local`, `.env.local`, `.env.{environment}`, `.env`;
a missing file contributes nothing, a later file never overwrites an already
present key, and a key defined on the process environment before loading
keeps its value: after loading, every key resolves to its first defined
source in that precedence order. -/
theorem c3_file_precedence (fsys : FileSystem) (env : Env) (k : String) :
    envPaths env =
      [ ".env." ++ nodeEnvName env ++ ".local"
      , ".env.local"
      , ".env." ++ nodeEnvName env
      , ".env" ] ∧
    forRootLoad true fsys env k =
      firstSome
        (env k :: (envPaths env).map (fun p => fileValue (fsys p) k)) := by
  refine ⟨rfl, ?_⟩
  rw [show forRootLoad true fsys env = loadFiles env ((envPaths env).map fsys)
      from rfl,
    loadFiles_apply, List.map_map]
  rfl

/-- C4: with strict mode enabled, accessing an ordinary key whose transformed
environment key is not defined throws the strict-mode error, whose message
contains both the original key and the derived environment key verbatim,
while `has` on the same key returns false without raising. -/
theorem c4_strict_missing (opts : ConfigOptions) (env : Env) (k : String)
    (h1 : k ≠ "then") (h2 : k ≠ "toJSON")
    (hmiss : env (nameMap k) = none) (hstrict : opts.strict = true) :
    configGet opts env (.str k) = .error (strictMsg k (nameMap k)) ∧
    k.data <:+: (strictMsg k (nameMap k)).data ∧
    (nameMap k).data <:+: (strictMsg k (nameMap k)).data ∧
    configHas env (.str k) = false := by
  refine ⟨?_, strictMsg_infix_key k (nameMap k),
    strictMsg_infix_envKey k (nameMap k), ?_⟩
  · simp [configGet, h1, h2, resolveValue, hmiss, hstrict]
  · simp [configHas, h1, h2, hmiss]

/-- C4 witness: the strict error and the false `has` at the concrete key
`notDefined` on an empty environment. -/
theorem c4_strict_missing_witness :
    configGet ⟨false, true, false⟩ (fun _ => none) (.str "notDefined")
        = .error (strictMsg "notDefined" "NOT_DEFINED") ∧
    "notDefined".data <:+: (strictMsg "notDefined" "NOT_DEFINED").data ∧
    "NOT_DEFINED".data <:+: (strictMsg "notDefined" "NOT_DEFINED").data ∧
    configHas (fun _ => none) (.str "notDefined") = false :=
  c4_strict_missing ⟨false, true, false⟩ (fun _ => none) "notDefined"
    (by decide) (by decide) rfl rfl

/-- C5 (code bug evidence): `Number("NaN")` is NaN, so `isCleanNumber`
rejects the string `NaN` and the coerce pipeline returns it unchanged as the
string `"NaN"` instead of the NaN number required by the claim, the spec
table and the repository's own test; by contrast `0x1F` and `Infinity` are
numeric-eligible and `007` and the empty string are not, as the claim
states. -/
theorem c5_nan_not_numeric_eligible :
    jsNumber "NaN" = .nan ∧
    isCleanNumber (some "NaN") = false ∧
    resolveValue ⟨false, false, true⟩ "envNan" "ENV_NAN" (some "NaN")
        = .ok (.str "NaN") ∧
    configGet ⟨false, false, true⟩
        (fun x => if x = "ENV_NAN" then some "NaN" else none) (.str "envNan")
        = .ok (.str "NaN") ∧
    isCleanNumber (some "0x1F") = true ∧
    jsNumber "0x1F" = .num 31 ∧
    isCleanNumber (some "Infinity") = true ∧
    jsNumber "Infinity" = .inf ∧
    isCleanNumber (some "007") = false ∧
    isCleanNumber (some "") = false :=
  ⟨by decide, by decide, rfl, rfl, by decide, by decide, by decide,
    by decide, by decide, by decide⟩

/-- C6: with coerce enabled the pipeline is applied top to bottom with the
first match winning — `"null"` coerces to the null value, `"undefined"` to
undefined, `"true"` and `"false"` to the booleans — and any defined string
matching no rule (in particular the empty string) is returned unchanged. -/
theorem c6_coercion_pipeline (l st : Bool) (p ek : String) :
    resolveValue ⟨l, st, true⟩ p ek (some "null") = .ok .nullV ∧
    resolveValue ⟨l, st, true⟩ p ek (some "undefined") = .ok .undefV ∧
    resolveValue ⟨l, st, true⟩ p ek (some "true") = .ok (.boolean true) ∧
    resolveValue ⟨l, st, true⟩ p ek (some "false") = .ok (.boolean false) ∧
    ∀ s : String, s ≠ "null" → s ≠ "undefined" → s ≠ "true" → s ≠ "false" →
      isCleanNumber (some s) = false →
      resolveValue ⟨l, st, true⟩ p ek (some s) = .ok (.str s) := by
  refine ⟨by simp [resolveValue], by simp [resolveValue],
    by simp [resolveValue], by simp [resolveValue], ?_⟩
  intro s h1 h2 h3 h4 h5
  simp [resolveValue, h1, h2, h3, h4, h5]

/-- C6 witness: the empty string survives the pipeline unchanged. -/
theorem c6_coercion_pipeline_witness :
    resolveValue ⟨false, false, true⟩ "variable" "VARIABLE" (some "")
      = .ok (.str "") :=
  (c6_coercion_pipeline false false "variable" "VARIABLE").2.2.2.2 ""
    (by decide) (by decide) (by decide) (by decide) (by decide)

/-- C7: with strict and coerce both enabled, a key whose environment entry is
the literal string `undefined` is a successful coercion to the undefined
value, not a missing-key condition: `get` returns undefined and raises no
strict error. -/
theorem c7_undefined_literal_no_strict_error (l : Bool) (env : Env)
    (k : String) (h : env (nameMap k) = some "undefined") :
    configGet ⟨l, true, true⟩ env (.str k) = .ok .undefV := by
  by_cases h1 : k = "then"
  · simp [configGet, h1]
  · by_cases h2 : k = "toJSON"
    · simp [configGet, h2]
    · simp [configGet, h1, h2, resolveValue, h]

/-- C7 witness: the concrete key `undefinedEnv` with `UNDEFINED_ENV` set to
the literal string `undefined`, under strict and coerce. -/
theorem c7_undefined_literal_no_strict_error_witness :
    configGet ⟨false, true, true⟩
        (fun x => if x = "UNDEFINED_ENV" then some "undefined" else none)
        (.str "undefinedEnv") = .ok .undefV :=
  c7_undefined_literal_no_strict_error false
    (fun x => if x = "UNDEFINED_ENV" then some "undefined" else none)
    "undefinedEnv" rfl

/-- C8: with strict disabled, a key whose transformed environment key is
undefined yields `undefined` from `get` (whatever the coerce flag) and false
from `has`; neither raises. -/
theorem c8_missing_nonstrict (l c : Bool) (env : Env) (k : String)
    (h : env (nameMap k) = none) :
    configGet ⟨l, false, c⟩ env (.str k) = .ok .undefV ∧
    configHas env (.str k) = false := by
  constructor
  · by_cases h1 : k = "then"
    · simp [configGet, h1]
    · by_cases h2 : k = "toJSON"
      · simp [configGet, h2]
      · cases c <;> simp [configGet, h1, h2, resolveValue, h, isCleanNumber]
  · by_cases h1 : k = "then"
    · simp [configHas, h1]
    · by_cases h2 : k = "toJSON"
      · simp [configHas, h2]
      · simp [configHas, h1, h2, h]

/-- C8 witness: the concrete key `notDefined` on an empty environment with
coerce enabled. -/
theorem c8_missing_nonstrict_witness :
    configGet ⟨false, false, true⟩ (fun _ => none) (.str "notDefined")
        = .ok .undefV ∧
    configHas (fun _ => none) (.str "notDefined") = false :=
  c8_missing_nonstrict false true (fun _ => none) "notDefined" rfl

/-- C10: with coerce enabled and strict disabled, `get` returns undefined
both for an environment storing the literal string `undefined` under the
transformed key and for one lacking the key entirely, so the two runs are
indistinguishable through `get`; `has` still distinguishes them, returning
true in the first run and false in the second. -/
theorem c10_coerced_undefined_vs_missing (l : Bool) (envDef envMiss : Env)
    (k : String) (h1 : k ≠ "then") (h2 : k ≠ "toJSON")
    (hdef : envDef (nameMap k) = some "undefined")
    (hmiss : envMiss (nameMap k) = none) :
    configGet ⟨l, false, true⟩ envDef (.str k)
        = configGet ⟨l, false, true⟩ envMiss (.str k) ∧
    configGet ⟨l, false, true⟩ envDef (.str k) = .ok .undefV ∧
    configHas envDef (.str k) = true ∧
    configHas envMiss (.str k) = false := by
  have hget1 : configGet ⟨l, false, true⟩ envDef (.str k) = .ok .undefV := by
    simp [configGet, h1, h2, resolveValue, hdef]
  have hget2 : configGet ⟨l, false, true⟩ envMiss (.str k) = .ok .undefV := by
    simp [configGet, h1, h2, resolveValue, hmiss, isCleanNumber]
  refine ⟨hget1.trans hget2.symm, hget1, ?_, ?_⟩
  · simp [configHas, h1, h2, hdef]
  · simp [configHas, h1, h2, hmiss]

/-- C10 witness: the concrete key `flag`, one environment with `FLAG` set to
the literal string `undefined` and one without `FLAG`. -/
theorem c10_coerced_undefined_vs_missing_witness :
    configGet ⟨false, false, true⟩
        (fun x => if x = "FLAG" then some "undefined" else none) (.str "flag")
        = configGet ⟨false, false, true⟩ (fun _ => none) (.str "flag") ∧
    configGet ⟨false, false, true⟩
        (fun x => if x = "FLAG" then some "undefined" else none) (.str "flag")
        = .ok .undefV ∧
    configHas (fun x => if x = "FLAG" then some "undefined" else none)
        (.str "flag") = true ∧
    configHas (fun _ => none) (.str "flag") = false :=
  c10_coerced_undefined_vs_missing false
    (fun x => if x = "FLAG" then some "undefined" else none) (fun _ => none)
    "flag" (by decide) (by decide) rfl rfl

end NeomaConfig
